import Mathlib

/-!
Verification development for the MTH9815 bond trading system.

Each C++ service is shallowly embedded as pure Lean functions over explicit
state.  Prices are modelled as rationals: every price handled by the system
lies on the 1/256 grid and stays well inside the range where IEEE doubles
represent these values and their sums, differences, floors and roundings
exactly, so the rational semantics coincides with the double semantics on
the inputs the system processes.  C++ `long` quantities and counters are
modelled as `Int`/`Nat` (signed overflow in C++ is undefined behaviour and
never reached by the magnitudes involved).  Keyed `std::map` stores are
modelled either as `String → Option V` or as association lists with
first-match update, which preserves lookup/insert/erase semantics; where a
summation iterates a map, the iteration order is irrelevant to the summed
result.
-/

namespace TradingSystem

/-! ## Price codec (`functions.hpp`) -/

/-- Numeric value of a decimal digit character. -/
def digitVal (c : Char) : ℕ := c.toNat - '0'.toNat

/-- Value of a list of decimal digit characters, most significant first. -/
def digitsToNat (l : List Char) : ℕ := l.foldl (fun a c => 10 * a + digitVal c) 0

/-- Core of `std::stod` as used by the price codec: the longest leading run
of decimal digits is converted; no digits at all raises
`std::invalid_argument`, modelled as `none`.  (The fractional / exponent
syntax of `stod` is never exercised by the price strings of this system.) -/
def stodCore (l : List Char) : Option ℕ :=
  let ds := l.takeWhile Char.isDigit
  if ds.isEmpty then none else some (digitsToNat ds)

/-- `std::stod` on the strings this system feeds it: an optional sign
followed by decimal digits.  A string with no digits (such as `"+"` or the
empty string) throws, modelled as `none`. -/
def stod (l : List Char) : Option ℚ :=
  match l with
  | '+' :: rest => (stodCore rest).map (fun n => (n : ℚ))
  | '-' :: rest => (stodCore rest).map (fun n => -(n : ℚ))
  | _ => (stodCore l).map (fun n => (n : ℚ))

/-- `std::stol` on the strings this system feeds it (same digit syntax). -/
def stol (l : List Char) : Option ℤ :=
  match l with
  | '+' :: rest => (stodCore rest).map (fun n => (n : ℤ))
  | '-' :: rest => (stodCore rest).map (fun n => -(n : ℤ))
  | _ => (stodCore l).map (fun n => (n : ℤ))

/-- Index of the first occurrence of a character (`std::string::find`);
`none` models `npos`. -/
def findChar (c : Char) : List Char → Option ℕ
  | [] => none
  | x :: rest => if x = c then some 0 else (findChar c rest).map (· + 1)

/-- `std::string::substr(pos, len)`: at most `len` characters starting at
`pos` (clamped at the end of the string, as in C++). -/
def substr (l : List Char) (pos len : ℕ) : List Char := (l.drop pos).take len

/-- `convertPrice(const string&)` from `functions.hpp`: fractional notation
to decimal.  Faithful to the source, including the vestigial branch for the
`'+'` glyph: the source writes `dec2 == "4";` — an equality test whose
result is discarded, not an assignment — so `dec2` still holds `"+"` when
`stod` is called, and `stod("+")` throws (`none` here). -/
def convertPriceStr (s : List Char) : Option ℚ :=
  match findChar '-' s with
  | none => none
  | some dashPos =>
    if s.length < dashPos + 3 then none
    else
      let intpart := substr s 0 dashPos
      let dec1 := substr s (dashPos + 1) 2
      let dec2 := substr s (dashPos + 3) 1
      -- source: `if (dec2 == "+") { dec2 == "4"; }` — a no-op
      match stod intpart, stod dec1, stod dec2 with
      | some a, some b, some c => some (a + b * (1 / 32) + c * (1 / 256))
      | _, _, _ => none

/-- C's `round` (half away from zero), which for the nonnegative fractional
parts handled here is `⌊x + 1/2⌋`. -/
def cppRound (x : ℚ) : ℤ := if 0 ≤ x then ⌊x + 1 / 2⌋ else ⌈x - 1 / 2⌉

/-- `std::to_string` on a nonnegative machine integer, as a character list. -/
def natToChars (n : ℕ) : List Char := Nat.toDigits 10 n

/-- `std::to_string` on a machine integer. -/
def intToChars (i : ℤ) : List Char :=
  if i < 0 then '-' :: natToChars i.natAbs else natToChars i.toNat

/-- `convertPrice(double)` from `functions.hpp`: decimal to fractional
notation.  `totalTicks = floor(round(frac*256))` is nonnegative because the
fractional part lies in `[0, 1)`, so it is taken in `ℕ`; `xy` and `z` use
C++ integer division and remainder on nonnegative values.  Note the source
renders `z` with `to_string(z)` unconditionally — there is no special case
producing `'+'` when `z == 4`. -/
def convertPriceDec (p : ℚ) : List Char :=
  let intPart : ℤ := ⌊p⌋
  let frac : ℚ := p - (intPart : ℚ)
  let totalTicks : ℕ := (cppRound (frac * 256)).toNat
  let xy : ℕ := totalTicks / 8
  let z : ℕ := totalTicks % 8
  intToChars intPart ++ ['-'] ++ (if xy < 10 then ['0'] else []) ++ natToChars xy ++ natToChars z

/-! ## Shared data model (`soa.hpp`, `tradebookingservice.hpp`, `marketdataservice.hpp`) -/

/-- Trade sides (`enum Side { BUY, SELL }`). -/
inductive Side
  | BUY
  | SELL
deriving DecidableEq

/-- Sides for market data (`enum PricingSide { BID, OFFER }`). -/
inductive PricingSide
  | BID
  | OFFER
deriving DecidableEq

/-- A keyed service store (`std::map<string, V>`), modelled as a lookup
function; `insert`/`erase` below match map assignment and `erase`. -/
def StrMap (α : Type) : Type := String → Option α

/-- The empty store. -/
def StrMap.empty {α : Type} : StrMap α := fun _ => none

/-- `store[k] = v` / `store.insert({k, v})` on a key known to be absent. -/
def StrMap.insert {α : Type} (m : StrMap α) (k : String) (v : α) : StrMap α :=
  fun x => if x = k then some v else m x

/-- `store.erase(k)`. -/
def StrMap.erase {α : Type} (m : StrMap α) (k : String) : StrMap α :=
  fun x => if x = k then none else m x

/-- Look up an association list by key, first match (`std::map::find`;
the lists built here never hold duplicate keys). -/
def lookupAssoc {α : Type} : List (String × α) → String → Option α
  | [], _ => none
  | (k, v) :: rest, b => if k = b then some v else lookupAssoc rest b

/-! ## Market data (`marketdataservice.hpp`) -/

/-- A market data order (`class Order`). -/
structure Order where
  price : ℚ
  quantity : ℤ
  side : PricingSide
deriving DecidableEq

/-- An order book (`class OrderBook`); the product is represented by its
identifier. -/
structure OrderBook where
  productId : String
  bidStack : List Order
  offerStack : List Order
deriving DecidableEq

/-- `std::max_element` over order prices with comparator `<`: the first
order whose price no later order strictly exceeds; `none` on an empty
stack (dereferencing the end iterator is undefined behaviour). -/
def maxElemByPrice (l : List Order) : Option Order :=
  l.foldl (fun acc o =>
    match acc with
    | none => some o
    | some m => if m.price < o.price then some o else some m) none

/-- `std::min_element` over order prices with comparator `<`. -/
def minElemByPrice (l : List Order) : Option Order :=
  l.foldl (fun acc o =>
    match acc with
    | none => some o
    | some m => if o.price < m.price then some o else some m) none

/-- `OrderBook::GetBestBidOffer`: max-price bid and min-price offer. -/
def getBestBidOffer (b : OrderBook) : Option (Order × Order) :=
  match maxElemByPrice b.bidStack, minElemByPrice b.offerStack with
  | some bid, some offer => some (bid, offer)
  | _, _ => none

/-- One accumulation step of `MarketDataService::AggregateDepth`'s
`aggMap[price] += order.GetQuantity()`: add the quantity into the level
with this price, or open a new level.  (The C++ accumulator is an
`unordered_map`; its iteration order is unspecified, and this model fixes
first-insertion order.  Which levels exist and the quantity at each level
are independent of that choice.) -/
def bumpLevel : List (ℚ × ℤ) → ℚ → ℤ → List (ℚ × ℤ)
  | [], p, q => [(p, q)]
  | (k, v) :: rest, p, q =>
    if k = p then (k, v + q) :: rest else (k, v) :: bumpLevel rest p q

/-- The price → total-quantity levels of a stack, in first-occurrence
order. -/
def stackLevels (l : List Order) : List (ℚ × ℤ) :=
  l.foldl (fun acc o => bumpLevel acc o.price o.quantity) []

/-- Rebuild a stack from aggregated levels, tagging every order with the
stack's side (the source pushes `Order(price, qty, BID)` resp. `OFFER`). -/
def levelsToOrders (side : PricingSide) (lv : List (ℚ × ℤ)) : List Order :=
  lv.map fun pq => ⟨pq.1, pq.2, side⟩

/-- Aggregation of one stack inside `AggregateDepth`. -/
def aggregateStack (side : PricingSide) (l : List Order) : List Order :=
  levelsToOrders side (stackLevels l)

/-- `MarketDataService::AggregateDepth`: replace both stacks by their
per-price aggregations. -/
def aggregateDepth (b : OrderBook) : OrderBook :=
  ⟨b.productId, aggregateStack .BID b.bidStack, aggregateStack .OFFER b.offerStack⟩

/-! ## Algo execution (`algoexecutionservice.hpp`) -/

/-- `enum OrderType`. -/
inductive OrderType
  | FOK
  | IOC
  | MARKET
  | LIMIT
  | STOP
deriving DecidableEq

/-- `enum Market`. -/
inductive Market
  | BROKERTEC
  | ESPEED
  | CME
deriving DecidableEq

/-- `class ExecutionOrder`.  In `AlgoExecuteOrder` the local variables
`side`, `price` and `quantity` are assigned only when the spread is tight;
when it is not, the constructed order carries their indeterminate
(uninitialised) values, modelled as `none`. -/
structure ExecutionOrder where
  productId : String
  side : Option PricingSide
  orderId : String
  orderType : OrderType
  price : Option ℚ
  visibleQuantity : Option ℤ
  hiddenQuantity : ℤ
  parentOrderId : String
  isChildOrder : Bool
deriving DecidableEq

/-- `class AlgoExecution`: an execution order on a market. -/
structure AlgoExecution where
  executionOrder : ExecutionOrder
  market : Market
deriving DecidableEq

/-- The mutable fields of `AlgoExecutionService`: the keyed store and the
parity counter (`count`, initialised to 0 in the constructor). -/
structure AlgoExecState where
  algoExecutions : StrMap AlgoExecution
  count : ℕ

/-- `AlgoExecutionService::AlgoExecuteOrder`, faithful to the source: the
tight-spread test `offerPrice - bidPrice <= 1.0/128.0` guards only the
assignment of `side`/`price`/`quantity`; the counter increment, the order
construction, the store update and the listener notifications are
unconditional.  The randomly generated `orderId`/`parentOrderId` are
passed in as parameters.  Returns the new state and the list of events
handed to each listener's `ProcessAdd`; `none` only for a book with an
empty stack (undefined behaviour in the source). -/
def algoExecuteOrder (orderId parentOrderId : String) (b : OrderBook)
    (st : AlgoExecState) : Option (AlgoExecState × List AlgoExecution) :=
  match getBestBidOffer b with
  | none => none
  | some (bid, offer) =>
    let spq : Option (PricingSide × ℚ × ℤ) :=
      if offer.price - bid.price ≤ 1 / 128 then
        let side : PricingSide := if st.count % 2 = 0 then .BID else .OFFER
        let price : ℚ := if side = .BID then offer.price else bid.price
        let quantity : ℤ := if side = .BID then bid.quantity else offer.quantity
        some (side, price, quantity)
      else none
    let count1 := st.count + 1
    let executionOrder : ExecutionOrder :=
      { productId := b.productId
        side := spq.map (·.1)
        orderId := orderId
        orderType := .MARKET
        price := spq.map (·.2.1)
        visibleQuantity := spq.map (·.2.2)
        hiddenQuantity := 0
        parentOrderId := parentOrderId
        isChildOrder := false }
    let algoExecution : AlgoExecution := ⟨executionOrder, .BROKERTEC⟩
    let m1 := ((st.algoExecutions.erase b.productId).insert b.productId algoExecution)
    some (⟨m1, count1⟩, [algoExecution])

/-! ## Trades, trade booking (`tradebookingservice.hpp`) -/

/-- `class Trade`. -/
structure Trade where
  productId : String
  tradeId : String
  price : ℚ
  book : String
  quantity : ℤ
  side : Side
deriving DecidableEq

/-- `TradeBookingServiceListener::ProcessAdd`: convert an execution order
into a trade, cycling the booked book by the pre-incremented counter
(`count` starts at 0; `count%3`: 0 → TRSY1, 1 → TRSY2, 2 → TRSY3, with the
default-initialised empty string from the unreachable fall-through).  The
source reads the order's possibly-uninitialised `side`/`price`/visible
quantity fields; the `getD` defaults stand for those indeterminate values
and do not influence the booked book.  Returns the new counter and the
trade injected into `TradeBookingService::OnMessage`. -/
def tbProcessAdd (count0 : ℕ) (eo : ExecutionOrder) : ℕ × Trade :=
  let quantity := eo.visibleQuantity.getD 0 + eo.hiddenQuantity
  let side : Side := if eo.side.getD .BID = .BID then .BUY else .SELL
  let count := count0 + 1
  let book :=
    if count % 3 = 0 then "TRSY1"
    else if count % 3 = 1 then "TRSY2"
    else if count % 3 = 2 then "TRSY3"
    else ""
  (count, { productId := eo.productId, tradeId := eo.orderId, price := eo.price.getD 0,
            book := book, quantity := quantity, side := side })

/-- The trades produced by a sequence of execution-order events against the
trade-booking listener, threading its counter. -/
def tbProcessAll (count0 : ℕ) : List ExecutionOrder → ℕ × List Trade
  | [] => (count0, [])
  | e :: rest =>
    let r1 := tbProcessAdd count0 e
    let r2 := tbProcessAll r1.1 rest
    (r2.1, r1.2 :: r2.2)

/-! ## Positions (`positionservice.hpp`) -/

/-- `class Position`: a product and its per-book signed quantities
(`map<string, long>`, modelled as an association list without duplicate
keys; the map's sorted iteration order only feeds summations and printing,
which are order-insensitive). -/
structure Position where
  productId : String
  bookpositions : List (String × ℤ)
deriving DecidableEq

/-- `Position::AddPosition`: `bookpositions[book] += position`, inserting
the entry when absent. -/
def updateBook : List (String × ℤ) → String → ℤ → List (String × ℤ)
  | [], b, q => [(b, q)]
  | (k, v) :: rest, b, q =>
    if k = b then (k, v + q) :: rest else (k, v) :: updateBook rest b q

/-- `Position::AddPosition` on the whole record. -/
def Position.addPosition (pos : Position) (book : String) (q : ℤ) : Position :=
  { pos with bookpositions := updateBook pos.bookpositions book q }

/-- `Position::GetAggregatePosition`: the sum of the per-book quantities. -/
def Position.aggregate (pos : Position) : ℤ :=
  (pos.bookpositions.map Prod.snd).sum

/-- The signed delta a trade contributes:
`(side == BUY) ? quantity : -quantity`. -/
def signedQty (t : Trade) : ℤ :=
  if t.side = .BUY then t.quantity else -t.quantity

/-- `PositionService::AddTrade`: create or update the product's position
with the trade's signed quantity under the trade's book.  (The listener
fan-out passes the updated position; it does not affect the store.) -/
def addTrade (st : StrMap Position) (t : Trade) : StrMap Position :=
  let quantity := if t.side = .BUY then t.quantity else -t.quantity
  let pos' :=
    match st t.productId with
    | none => Position.addPosition ⟨t.productId, []⟩ t.book quantity
    | some p => p.addPosition t.book quantity
  st.insert t.productId pos'

/-- The position store after a sequence of trades. -/
def processTrades (ts : List Trade) (st : StrMap Position) : StrMap Position :=
  ts.foldl addTrade st

/-- The aggregate position the service reports for a product (0 when the
product has never traded). -/
def aggregateOf (st : StrMap Position) (pid : String) : ℤ :=
  (st pid).elim 0 Position.aggregate

/-! ## Risk (`riskservice.hpp`) -/

/-- `class PV01`: a product reference (by identifier), its PV01 factor and
the signed quantity the risk is associated with. -/
structure PV01 where
  productId : String
  pv01 : ℚ
  quantity : ℤ
deriving DecidableEq

/-- `PV01::AddQuantity`. -/
def PV01.addQuantity (r : PV01) (q : ℤ) : PV01 :=
  { r with quantity := r.quantity + q }

/-- `class BucketedSector`: a named list of products (by identifier). -/
structure BucketedSector where
  products : List String
  name : String

/-- `PV01<BucketedSector<T>>`: the sector-level risk record returned by
`GetBucketedRisk`. -/
structure BucketedPV01 where
  sector : BucketedSector
  pv01 : ℚ
  quantity : ℤ

/-- `getPV01` from `functions.hpp`: the static CUSIP → PV01 factor table;
unknown products fall through to the initial 0. -/
def getPV01 (cusip : String) : ℚ :=
  if cusip = "9128283H1" then 0.01948992
  else if cusip = "9128283L2" then 0.02865304
  else if cusip = "912828M80" then 0.04581119
  else if cusip = "9128283J7" then 0.06127718
  else if cusip = "9128283F5" then 0.08161449
  else if cusip = "912810RZ3" then 0.15013155
  else 0

/-- `RiskService::AddPosition`: build a fresh `PV01` from the product's
static factor and the position's aggregate quantity; if the product already
has a record, add the quantity into it, otherwise insert the fresh record.
Listeners receive the freshly constructed record (the delta, not the
running total). -/
def riskAddPosition (st : StrMap PV01) (pos : Position) :
    StrMap PV01 × List PV01 :=
  let productId := pos.productId
  let quantity := pos.aggregate
  let pv01Val := getPV01 productId
  let fresh : PV01 := ⟨productId, pv01Val, quantity⟩
  let st' :=
    match st productId with
    | some r => st.insert productId (r.addQuantity quantity)
    | none => st.insert productId fresh
  (st', [fresh])

/-- `RiskService::GetBucketedRisk`: fold over the sector's members,
accumulating `Σ factor·quantity` and `Σ quantity` over the members present
in the store (absent members contribute nothing). -/
def getBucketedRisk (st : StrMap PV01) (sector : BucketedSector) : BucketedPV01 :=
  let acc := sector.products.foldl
    (fun (acc : ℚ × ℤ) pid =>
      match st pid with
      | some r => (acc.1 + r.pv01 * (r.quantity : ℚ), acc.2 + r.quantity)
      | none => acc)
    (0, 0)
  ⟨sector, acc.1, acc.2⟩

/-! ## Inquiries (`inquiryservice.hpp`) -/

/-- `enum InquiryState`. -/
inductive InquiryState
  | RECEIVED
  | QUOTED
  | DONE
  | REJECTED
  | CUSTOMER_REJECTED
deriving DecidableEq

/-- `class Inquiry` (product kept by identifier). -/
structure Inquiry where
  inquiryId : String
  productId : String
  side : Side
  quantity : ℤ
  price : ℚ
  state : InquiryState
deriving DecidableEq

/-- `InquiryService::OnMessage`, parametrised by the connector `Publish` it
invokes on a RECEIVED inquiry.  The inquiry travels by reference in C++,
so every step returns the (possibly mutated) inquiry along with the store
and the snapshots handed to each listener's `ProcessAdd`, in order.
Mirrors the source line by line: the RECEIVED branch defers to
`connector->Publish`; the QUOTED branch flips the state to DONE and
erase/inserts; afterwards a DONE inquiry is erased (otherwise assigned),
and only then are the listeners notified with the current object. -/
def onMessageWith
    (pub : Inquiry → StrMap Inquiry → Inquiry × StrMap Inquiry × List Inquiry)
    (inq : Inquiry) (st : StrMap Inquiry) :
    Inquiry × StrMap Inquiry × List Inquiry :=
  let inquiryId := inq.inquiryId
  let r1 : Inquiry × StrMap Inquiry × List Inquiry :=
    if inq.state = .RECEIVED then
      pub inq st
    else if inq.state = .QUOTED then
      let inq1 := { inq with state := .DONE }
      ((inq1, (st.erase inquiryId).insert inquiryId inq1, []) :
        Inquiry × StrMap Inquiry × List Inquiry)
    else ((inq, st, []) : Inquiry × StrMap Inquiry × List Inquiry)
  let inq2 := r1.1
  let st2 := r1.2.1
  let st3 :=
    if inq2.state = .DONE then st2.erase inq2.inquiryId
    else st2.insert inq2.inquiryId inq2
  (inq2, st3, r1.2.2 ++ [inq2])

/-- The trivial connector: used for the re-entrant `OnMessage` calls made
from inside `Publish`, whose inquiries are never in state RECEIVED (see
`onMessageWith_pub_irrelevant`). -/
def trivialPub (inq : Inquiry) (st : StrMap Inquiry) :
    Inquiry × StrMap Inquiry × List Inquiry := (inq, st, [])

/-- `InquiryConnector::Publish`: on a RECEIVED inquiry, flip its state to
QUOTED and re-dispatch into `OnMessage`, then flip it to DONE and
re-dispatch again; otherwise do nothing. -/
def inquiryConnectorPublish (inq : Inquiry) (st : StrMap Inquiry) :
    Inquiry × StrMap Inquiry × List Inquiry :=
  if inq.state = .RECEIVED then
    let inqA := { inq with state := InquiryState.QUOTED }
    let r1 := onMessageWith trivialPub inqA st
    let inqC := { r1.1 with state := InquiryState.DONE }
    let r2 := onMessageWith trivialPub inqC r1.2.1
    (r2.1, r2.2.1, r1.2.2 ++ r2.2.2)
  else (inq, st, [])

/-- `InquiryService::OnMessage` with its real connector. -/
def inquiryOnMessage (inq : Inquiry) (st : StrMap Inquiry) :
    Inquiry × StrMap Inquiry × List Inquiry :=
  onMessageWith inquiryConnectorPublish inq st

/-- The state-token decoding chain in `InquiryConnector::Subscribe`:
anything other than the four known tokens falls through to
CUSTOMER_REJECTED. -/
def toInquiryState (s : String) : InquiryState :=
  if s = "RECEIVED" then .RECEIVED
  else if s = "QUOTED" then .QUOTED
  else if s = "DONE" then .DONE
  else if s = "REJECTED" then .REJECTED
  else .CUSTOMER_REJECTED

/-- `getProductObject` from `functions.hpp` succeeds exactly on the seven
catalogued CUSIPs (it throws `invalid_argument` otherwise). -/
def isKnownCusip (cusip : String) : Bool :=
  cusip = "9128283H1" || cusip = "9128283L2" || cusip = "912828M80" ||
  cusip = "9128283J7" || cusip = "9128283F5" || cusip = "912810TW8" ||
  cusip = "912810RZ3"

/-- The per-line decoding of `InquiryConnector::Subscribe`: fields
`[inquiryId, productId, side, quantity, price, state]`; `none` models the
run-aborting exceptions (missing fields, unknown CUSIP, `stol`/price
failures).  The state field cannot fail. -/
def inquirySubscribeLine (lineVec : List String) : Option Inquiry :=
  match lineVec[0]?, lineVec[1]?, lineVec[2]?, lineVec[3]?, lineVec[4]?, lineVec[5]? with
  | some inquiryId, some productId, some sideTok, some qtyStr, some priceStr, some stateTok =>
    if isKnownCusip productId then
      match stol qtyStr.data, convertPriceStr priceStr.data with
      | some quantity, some price =>
        some { inquiryId := inquiryId, productId := productId,
               side := if sideTok = "BUY" then .BUY else .SELL,
               quantity := quantity, price := price,
               state := toInquiryState stateTok }
      | _, _ => none
    else none
  | _, _, _, _, _, _ => none

/-! ## Prices and the GUI service (`pricingservice.hpp`, `GUIservice.hpp`) -/

/-- `class Price` (product by identifier, mid and bid/offer spread). -/
structure Price where
  productId : String
  mid : ℚ
  bidOfferSpread : ℚ
deriving DecidableEq

/-- The mutable fields of `GUIService`: the keyed store, the reference
time `cur_time` (milliseconds of the system clock, set to "now" in the
constructor), the 300 ms `throttle`, and the lines appended to the
`gui.txt` sink by the connector, as (timestamp, price) pairs. -/
structure GUIState where
  guis : StrMap Price
  curTime : ℤ
  throttle : ℤ
  sink : List (ℤ × Price)

/-- The GUI service as constructed (`throttle = 300`,
`cur_time = now()` at construction time `t0`). -/
def guiInit (t0 : ℤ) : GUIState := ⟨StrMap.empty, t0, 300, []⟩

/-- `GUIConnector::Publish`: append the timestamped price to the sink. -/
def guiConnectorPublish (now : ℤ) (p : Price) (st : GUIState) : GUIState :=
  { st with sink := st.sink ++ [(now, p)] }

/-- `GUIService::PublishThrottledPrice`: emit through the connector and
reset the reference time when more than `throttle` milliseconds have
passed, otherwise do nothing.  (No caller exists anywhere in the source.) -/
def publishThrottledPrice (now : ℤ) (p : Price) (st : GUIState) : GUIState :=
  if now - st.curTime > st.throttle then
    guiConnectorPublish now p { st with curTime := now }
  else st

/-- `GUIService::OnMessage`: its body is empty — `void OnMessage(Price<T>&
_data) override {};` — so a price event mutates nothing and emits
nothing. -/
def guiOnMessage (_p : Price) (st : GUIState) : GUIState := st

/-- `GUIServiceListener::ProcessAdd` forwards into `OnMessage`. -/
def guiProcessAdd (p : Price) (st : GUIState) : GUIState := guiOnMessage p st

/-- The GUI state after a sequence of price events reaches the service
through its listener (each event paired with its wall-clock arrival time;
the listener path never reads the clock). -/
def guiProcessEvents (evs : List (ℤ × Price)) (st : GUIState) : GUIState :=
  evs.foldl (fun s e => guiProcessAdd e.2 s) st

/-! ## Position conservation (C5) -/

theorem updateBook_sum (bp : List (String × ℤ)) (b : String) (q : ℤ) :
    ((updateBook bp b q).map Prod.snd).sum = (bp.map Prod.snd).sum + q := by
  induction bp with
  | nil => simp [updateBook]
  | cons hd tl ih =>
    obtain ⟨k, v⟩ := hd
    by_cases h : k = b
    · simp [updateBook, h]
      ring
    · simp [updateBook, h, ih]
      ring

theorem aggregate_addPosition (pos : Position) (b : String) (q : ℤ) :
    (pos.addPosition b q).aggregate = pos.aggregate + q := by
  simp [Position.addPosition, Position.aggregate, updateBook_sum]

theorem aggregateOf_addTrade (st : StrMap Position) (t : Trade) (pid : String) :
    aggregateOf (addTrade st t) pid =
      aggregateOf st pid + (if t.productId = pid then signedQty t else 0) := by
  unfold addTrade aggregateOf StrMap.insert
  by_cases h : pid = t.productId
  · cases hst : st t.productId with
    | none =>
      simp [h, hst, Position.addPosition, updateBook, Position.aggregate, signedQty]
    | some p => simp [h, hst, aggregate_addPosition, signedQty]
  · simp [h]
    intro hh
    exact absurd hh.symm h

theorem aggregateOf_processTrades (ts : List Trade) (st : StrMap Position)
    (pid : String) :
    aggregateOf (processTrades ts st) pid =
      aggregateOf st pid + ((ts.filter (fun t => t.productId = pid)).map signedQty).sum := by
  induction ts generalizing st with
  | nil => simp [processTrades]
  | cons hd tl ih =>
    have hstep := aggregateOf_addTrade st hd pid
    by_cases h : hd.productId = pid
    · simp only [processTrades, List.foldl_cons] at *
      rw [ih (addTrade st hd), hstep]
      simp [h]
      ring
    · simp only [processTrades, List.foldl_cons] at *
      rw [ih (addTrade st hd), hstep]
      simp [h]

/-- C5: for every product, after the position service has processed a
finite sequence of trades starting from its empty store, the aggregate
position of that product equals the sum over the trades booked against it
of quantity·sign (sign +1 for BUY, −1 for SELL); the aggregate is by
definition the sum of the per-book signed quantities stored for the
product. -/
theorem position_aggregate_conservation (ts : List Trade) (pid : String) :
    aggregateOf (processTrades ts StrMap.empty) pid =
      ((ts.filter (fun t => t.productId = pid)).map signedQty).sum := by
  rw [aggregateOf_processTrades]
  simp [aggregateOf, StrMap.empty]

/-! ## Trade-booking book cycle (C6) -/

/-- The book the claim predicts for the k-th execution event (k from 1). -/
def expectedBook (k : ℕ) : String :=
  if k % 3 = 1 then "TRSY2" else if k % 3 = 2 then "TRSY3" else "TRSY1"

theorem tbProcessAdd_count (c : ℕ) (eo : ExecutionOrder) :
    (tbProcessAdd c eo).1 = c + 1 := rfl

theorem tbProcessAdd_book (c : ℕ) (eo : ExecutionOrder) :
    (tbProcessAdd c eo).2.book = expectedBook (c + 1) := by
  have h3 : (c + 1) % 3 = 0 ∨ (c + 1) % 3 = 1 ∨ (c + 1) % 3 = 2 := by omega
  rcases h3 with h | h | h <;> simp [tbProcessAdd, expectedBook, h]

theorem tbProcessAll_books (eos : List ExecutionOrder) (c : ℕ) :
    ((tbProcessAll c eos).2).map (fun t => t.book) =
      (List.range eos.length).map (fun k => expectedBook (c + k + 1)) := by
  induction eos generalizing c with
  | nil => simp [tbProcessAll]
  | cons e rest ih =>
    simp only [tbProcessAll, List.map_cons, List.length_cons,
      List.range_succ_eq_map, List.map_map, tbProcessAdd_count]
    rw [tbProcessAdd_book, ih (c + 1)]
    refine congrArg₂ _ (by simp) ?_
    refine List.map_congr_left ?_
    intro a _
    simp only [Function.comp_apply, Nat.succ_eq_add_one]
    congr 1
    omega

/-- C6: the k-th execution-order event (k starting at 1) reaching the
trade-booking listener is booked to TRSY2 when k mod 3 = 1, TRSY3 when
k mod 3 = 2, and TRSY1 when k mod 3 = 0; in particular the first nine
events are booked to TRSY2, TRSY3, TRSY1, TRSY2, TRSY3, TRSY1, TRSY2,
TRSY3, TRSY1. -/
theorem trade_booking_book_cycle (eos : List ExecutionOrder) :
    (((tbProcessAll 0 eos).2).map (fun t => t.book) =
      (List.range eos.length).map (fun k =>
        if (k + 1) % 3 = 1 then "TRSY2"
        else if (k + 1) % 3 = 2 then "TRSY3" else "TRSY1")) ∧
    (List.range 9).map (fun k =>
        if (k + 1) % 3 = 1 then "TRSY2"
        else if (k + 1) % 3 = 2 then "TRSY3" else "TRSY1") =
      ["TRSY2", "TRSY3", "TRSY1", "TRSY2", "TRSY3", "TRSY1", "TRSY2", "TRSY3", "TRSY1"] := by
  refine ⟨?_, by decide⟩
  rw [tbProcessAll_books]
  simp [expectedBook]

/-! ## Depth aggregation is idempotent (C7) -/

theorem bumpLevel_keys (lv : List (ℚ × ℤ)) (p : ℚ) (q : ℤ) :
    (bumpLevel lv p q).map Prod.fst =
      if p ∈ lv.map Prod.fst then lv.map Prod.fst else lv.map Prod.fst ++ [p] := by
  induction lv with
  | nil => simp [bumpLevel]
  | cons hd tl ih =>
    obtain ⟨k, v⟩ := hd
    by_cases h : k = p
    · simp [bumpLevel, h]
    · simp only [bumpLevel, if_neg h, List.map_cons, ih]
      by_cases hm : p ∈ tl.map Prod.fst
      · simp [hm, Ne.symm h]
      · simp [hm, Ne.symm h]

theorem bumpLevel_of_not_mem (lv : List (ℚ × ℤ)) (p : ℚ) (q : ℤ)
    (h : p ∉ lv.map Prod.fst) : bumpLevel lv p q = lv ++ [(p, q)] := by
  induction lv with
  | nil => simp [bumpLevel]
  | cons hd tl ih =>
    obtain ⟨k, v⟩ := hd
    simp only [List.map_cons, List.mem_cons, not_or] at h
    simp [bumpLevel, Ne.symm h.1, ih h.2]

theorem bumpLevel_keys_nodup (lv : List (ℚ × ℤ)) (p : ℚ) (q : ℤ)
    (h : (lv.map Prod.fst).Nodup) : ((bumpLevel lv p q).map Prod.fst).Nodup := by
  rw [bumpLevel_keys]
  by_cases hm : p ∈ lv.map Prod.fst
  · simpa [hm] using h
  · simp [hm, List.nodup_append, h]

theorem foldl_bumpLevel_keys_nodup (l : List Order) (acc : List (ℚ × ℤ))
    (h : (acc.map Prod.fst).Nodup) :
    (((l.foldl (fun a o => bumpLevel a o.price o.quantity) acc)).map Prod.fst).Nodup := by
  induction l generalizing acc with
  | nil => simpa using h
  | cons o rest ih =>
    simp only [List.foldl_cons]
    exact ih _ (bumpLevel_keys_nodup _ _ _ h)

theorem stackLevels_keys_nodup (l : List Order) :
    ((stackLevels l).map Prod.fst).Nodup :=
  foldl_bumpLevel_keys_nodup l [] (by simp)

theorem foldl_bumpLevel_of_nodup (l acc : List (ℚ × ℤ))
    (h : ((acc ++ l).map Prod.fst).Nodup) :
    l.foldl (fun a x => bumpLevel a x.1 x.2) acc = acc ++ l := by
  induction l generalizing acc with
  | nil => simp
  | cons x rest ih =>
    have hx : x.1 ∉ acc.map Prod.fst := by
      simp only [List.map_append, List.nodup_append, List.map_cons,
        List.nodup_cons, List.disjoint_cons_right] at h
      exact fun hc => h.2.2.1 hc
    have hbump : bumpLevel acc x.1 x.2 = acc ++ [x] := by
      rw [bumpLevel_of_not_mem _ _ _ hx]
    have hh : (((acc ++ [x]) ++ rest).map Prod.fst).Nodup := by
      simpa [List.append_assoc] using h
    simp only [List.foldl_cons, hbump, ih (acc ++ [x]) hh, List.append_assoc,
      List.singleton_append]

theorem stackLevels_levelsToOrders (side : PricingSide) (lv : List (ℚ × ℤ)) :
    stackLevels (levelsToOrders side lv) =
      lv.foldl (fun a x => bumpLevel a x.1 x.2) [] := by
  simp [stackLevels, levelsToOrders, List.foldl_map]

theorem aggregateStack_idem (side : PricingSide) (l : List Order) :
    aggregateStack side (aggregateStack side l) = aggregateStack side l := by
  unfold aggregateStack
  rw [stackLevels_levelsToOrders,
    foldl_bumpLevel_of_nodup _ [] (by simpa using stackLevels_keys_nodup l),
    List.nil_append]

/-- All orders of a book with their sides, bids first. -/
def bookOrders (b : OrderBook) : List Order := b.bidStack ++ b.offerStack

/-- Whether the book shows a level at this (price, side). -/
def hasLevel (b : OrderBook) (p : ℚ) (s : PricingSide) : Prop :=
  ∃ o ∈ bookOrders b, o.price = p ∧ o.side = s

/-- Total quantity the book shows at this (price, side). -/
def qtyAt (b : OrderBook) (p : ℚ) (s : PricingSide) : ℤ :=
  (((bookOrders b).filter (fun o => o.price = p ∧ o.side = s)).map
    (fun o => o.quantity)).sum

/-- C7: aggregation is idempotent — re-aggregating an already-aggregated
order book yields the very same book, hence in particular the same set of
(price, side) levels and the same quantity at each level. -/
theorem aggregate_depth_idempotent (b : OrderBook) :
    aggregateDepth (aggregateDepth b) = aggregateDepth b ∧
    (∀ p s, hasLevel (aggregateDepth (aggregateDepth b)) p s ↔
      hasLevel (aggregateDepth b) p s) ∧
    (∀ p s, qtyAt (aggregateDepth (aggregateDepth b)) p s =
      qtyAt (aggregateDepth b) p s) := by
  have heq : aggregateDepth (aggregateDepth b) = aggregateDepth b := by
    unfold aggregateDepth
    simp [aggregateStack_idem]
  exact ⟨heq, fun p s => by rw [heq], fun p s => by rw [heq]⟩

/-! ## Inquiry transition chain (C1) -/

/-- The connector argument is irrelevant for inquiries not in state
RECEIVED, which justifies using `trivialPub` for the re-entrant calls in
`inquiryConnectorPublish`. -/
theorem onMessageWith_pub_irrelevant
    (pub pub' : Inquiry → StrMap Inquiry → Inquiry × StrMap Inquiry × List Inquiry)
    (inq : Inquiry) (st : StrMap Inquiry) (h : inq.state ≠ .RECEIVED) :
    onMessageWith pub inq st = onMessageWith pub' inq st := by
  simp [onMessageWith, h]

/-- C1 (amended): ingesting an inquiry in state RECEIVED drives exactly
three `ProcessAdd` callbacks, but — the inquiry object being mutated in
place before every fan-out — each of the three carries state DONE, and
after the third the store holds no entry under the inquiry id. -/
theorem inquiry_received_three_done_dispatches (inq : Inquiry)
    (st : StrMap Inquiry) (h : inq.state = .RECEIVED) :
    ((inquiryOnMessage inq st).2.2).map (fun i => i.state) =
      [.DONE, .DONE, .DONE] ∧
    (inquiryOnMessage inq st).2.1 inq.inquiryId = none := by
  simp [inquiryOnMessage, onMessageWith, inquiryConnectorPublish, trivialPub,
    h, StrMap.erase, StrMap.insert]

/-- A concrete RECEIVED inquiry for evaluating the inquiry pipeline. -/
def sampleInquiry : Inquiry :=
  { inquiryId := "I1", productId := "9128283H1", side := .BUY,
    quantity := 1000000, price := 99, state := .RECEIVED }

/-- C1 (counterexample): for a concrete RECEIVED inquiry entering an empty
store, the three listener callbacks carry states [DONE, DONE, DONE], not
[RECEIVED, QUOTED, DONE] as claimed. -/
theorem inquiry_received_states_counterexample :
    ((inquiryOnMessage sampleInquiry StrMap.empty).2.2).map (fun i => i.state) =
      [.DONE, .DONE, .DONE] ∧
    ((inquiryOnMessage sampleInquiry StrMap.empty).2.2).map (fun i => i.state) ≠
      [.RECEIVED, .QUOTED, .DONE] := by
  constructor <;> decide

/-- Witness for C1's amended theorem at the concrete inquiry. -/
theorem inquiry_received_three_done_dispatches_witness :
    sampleInquiry.state = .RECEIVED ∧
    (((inquiryOnMessage sampleInquiry StrMap.empty).2.2).map (fun i => i.state) =
        [.DONE, .DONE, .DONE] ∧
      (inquiryOnMessage sampleInquiry StrMap.empty).2.1 sampleInquiry.inquiryId =
        none) :=
  ⟨rfl, inquiry_received_three_done_dispatches sampleInquiry StrMap.empty rfl⟩

/-! ## Unknown inquiry state tokens (C9) -/

/-- C9: an inquiry input record whose state field is none of RECEIVED,
QUOTED, DONE, REJECTED decodes — provided the other fields parse — to an
inquiry in state CUSTOMER_REJECTED instead of aborting the run. -/
theorem unknown_inquiry_state_customer_rejected
    (id pid sideTok qtyStr priceStr stateTok : String)
    (hc : isKnownCusip pid = true)
    (hq : (stol qtyStr.data).isSome = true)
    (hp : (convertPriceStr priceStr.data).isSome = true)
    (h1 : stateTok ≠ "RECEIVED") (h2 : stateTok ≠ "QUOTED")
    (h3 : stateTok ≠ "DONE") (h4 : stateTok ≠ "REJECTED") :
    (inquirySubscribeLine [id, pid, sideTok, qtyStr, priceStr, stateTok]).map
      (fun i => i.state) = some .CUSTOMER_REJECTED := by
  rcases hqv : stol qtyStr.data with _ | q
  · rw [hqv] at hq; simp at hq
  rcases hpv : convertPriceStr priceStr.data with _ | pr
  · rw [hpv] at hp; simp at hp
  simp [inquirySubscribeLine, hc, hqv, hpv, toInquiryState, h1, h2, h3, h4]

/-- Witness for C9 at a concrete record with state token "UNKNOWN". -/
theorem unknown_inquiry_state_customer_rejected_witness :
    isKnownCusip "9128283H1" = true ∧
    (stol "1000000".data).isSome = true ∧
    (convertPriceStr "99-164".data).isSome = true ∧
    (inquirySubscribeLine
        ["I1", "9128283H1", "BUY", "1000000", "99-164", "UNKNOWN"]).map
      (fun i => i.state) = some .CUSTOMER_REJECTED :=
  ⟨by decide, by decide, by decide,
    unknown_inquiry_state_customer_rejected "I1" "9128283H1" "BUY" "1000000"
      "99-164" "UNKNOWN" (by decide) (by decide) (by decide)
      (by decide) (by decide) (by decide) (by decide)⟩

/-! ## Risk accumulation frame (C10) -/

/-- C10: when the product already has a PV01 record, a further Position
event only adds the incoming aggregate quantity into that record — the
stored factor and product reference survive unchanged — and records of
other products are untouched. -/
theorem risk_add_position_frame (st : StrMap PV01) (pos : Position) (r : PV01)
    (h : st pos.productId = some r) :
    (riskAddPosition st pos).1 pos.productId =
      some ⟨r.productId, r.pv01, r.quantity + pos.aggregate⟩ ∧
    ∀ k, k ≠ pos.productId → (riskAddPosition st pos).1 k = st k := by
  constructor
  · simp [riskAddPosition, h, StrMap.insert, PV01.addQuantity]
  · intro k hk
    simp [riskAddPosition, h, StrMap.insert, hk]

/-- A concrete one-record risk store. -/
def riskStoreW : StrMap PV01 :=
  StrMap.empty.insert "9128283H1" ⟨"9128283H1", getPV01 "9128283H1", 600000⟩

/-- A concrete position event for the stored product. -/
def positionW : Position := ⟨"9128283H1", [("TRSY1", 400000)]⟩

/-- Witness for C10 at the concrete store and position. -/
theorem risk_add_position_frame_witness :
    riskStoreW "9128283H1" =
      some ⟨"9128283H1", getPV01 "9128283H1", 600000⟩ ∧
    ((riskAddPosition riskStoreW positionW).1 "9128283H1" =
        some ⟨"9128283H1", getPV01 "9128283H1",
          (600000 : ℤ) + positionW.aggregate⟩ ∧
      ∀ k, k ≠ "9128283H1" →
        (riskAddPosition riskStoreW positionW).1 k = riskStoreW k) :=
  ⟨rfl, risk_add_position_frame riskStoreW positionW
    ⟨"9128283H1", getPV01 "9128283H1", 600000⟩ rfl⟩

/-! ## Bucketed risk (C8) -/

theorem bucketedRisk_foldl (st : StrMap PV01) (mem : List (String × ℚ × ℤ))
    (acc : ℚ × ℤ)
    (h : ∀ x ∈ mem, st x.1 = some ⟨x.1, x.2.1, x.2.2⟩) :
    mem.foldl (fun (a : ℚ × ℤ) x =>
        match st x.1 with
        | some r => (a.1 + r.pv01 * (r.quantity : ℚ), a.2 + r.quantity)
        | none => a) acc =
      (acc.1 + (mem.map (fun x => x.2.1 * (x.2.2 : ℚ))).sum,
        acc.2 + (mem.map (fun x => x.2.2)).sum) := by
  induction mem generalizing acc with
  | nil => simp
  | cons x rest ih =>
    have hx := h x (by simp)
    simp only [List.foldl_cons, hx]
    rw [ih _ (fun y hy => h y (by simp [hy]))]
    simp only [List.map_cons, List.sum_cons, Prod.mk.injEq]
    constructor <;> ring

/-- C8: for a bucketed sector whose members carry stored factors `fᵢ` and
quantities `qᵢ`, `GetBucketedRisk` returns PV01 factor `Σ fᵢ·qᵢ` and
quantity `Σ qᵢ`. -/
theorem bucketed_risk_sums (st : StrMap PV01) (name : String)
    (mem : List (String × ℚ × ℤ))
    (h : ∀ x ∈ mem, st x.1 = some ⟨x.1, x.2.1, x.2.2⟩) :
    (getBucketedRisk st ⟨mem.map Prod.fst, name⟩).pv01 =
      (mem.map (fun x => x.2.1 * (x.2.2 : ℚ))).sum ∧
    (getBucketedRisk st ⟨mem.map Prod.fst, name⟩).quantity =
      (mem.map (fun x => x.2.2)).sum := by
  unfold getBucketedRisk
  rw [List.foldl_map, bucketedRisk_foldl st mem (0, 0) h]
  simp

/-- A concrete two-product risk store for the sector witness. -/
def riskStoreAB : StrMap PV01 :=
  (StrMap.empty.insert "9128283L2" ⟨"9128283L2", 3, 200⟩).insert
    "9128283H1" ⟨"9128283H1", 2, 100⟩

/-- The members of the concrete sector, with their factors and
quantities. -/
def sectorMembersAB : List (String × ℚ × ℤ) :=
  [("9128283H1", 2, 100), ("9128283L2", 3, 200)]

/-- Witness for C8 on the concrete two-product sector with members A and
B. -/
theorem bucketed_risk_sums_witness :
    (∀ x ∈ sectorMembersAB, riskStoreAB x.1 = some ⟨x.1, x.2.1, x.2.2⟩) ∧
    ((getBucketedRisk riskStoreAB ⟨sectorMembersAB.map Prod.fst, "FrontOffice"⟩).pv01 =
        (sectorMembersAB.map (fun x => x.2.1 * (x.2.2 : ℚ))).sum ∧
      (getBucketedRisk riskStoreAB ⟨sectorMembersAB.map Prod.fst, "FrontOffice"⟩).quantity =
        (sectorMembersAB.map (fun x => x.2.2)).sum) := by
  have h : ∀ x ∈ sectorMembersAB, riskStoreAB x.1 = some ⟨x.1, x.2.1, x.2.2⟩ := by
    intro x hx
    fin_cases hx <;> rfl
  exact ⟨h, bucketed_risk_sums riskStoreAB "FrontOffice" sectorMembersAB h⟩

/-! ## Algo-execution spread gate (C2) -/

/-- A book whose best-offer minus best-bid spread (1) exceeds 1/128. -/
def wideBook : OrderBook :=
  ⟨"9128283H1", [⟨99, 1000000, .BID⟩], [⟨100, 2000000, .OFFER⟩]⟩

/-- The algo-execution service as constructed (`count = 0`, empty store). -/
def algoInit : AlgoExecState := ⟨StrMap.empty, 0⟩

/-- C2 (code behaviour at the failing input): on a book whose spread
exceeds 1/128 the counter is incremented, but — contrary to the claim —
one `ProcessAdd` event is still delivered and the store is still updated
for the book's product; the emitted order carries the indeterminate
(uninitialised) side/price/quantity. -/
theorem algo_execution_wide_spread_code_behavior :
    (100 : ℚ) - 99 > 1 / 128 ∧
    (algoExecuteOrder "A1" "AP1" wideBook algoInit).map
        (fun r => (r.2.length, r.1.count, (r.1.algoExecutions "9128283H1").isSome,
          r.2.map (fun a => a.executionOrder.side))) =
      some (1, 1, true, [none]) := by
  have hcond : ¬((100 : ℚ) - 99 ≤ 1 / 128) := by norm_num
  refine ⟨by norm_num, ?_⟩
  simp [algoExecuteOrder, wideBook, algoInit, getBestBidOffer, maxElemByPrice,
    minElemByPrice, hcond, StrMap.insert, StrMap.erase, StrMap.empty]
  norm_num

/-! ## Price codec and the plus glyph (C3) -/

/-- C3 (code behaviour at the failing input): the encoder renders
`99 + 16/32 + 4/256` as `"99-164"` — not `"99-16+"` as claimed — and the
decoder rejects `"99-16+"` (`stod("+")` throws) instead of treating the
trailing `'+'` as the digit 4. -/
theorem price_codec_plus_glyph_code_behavior :
    convertPriceDec (99 + 16 / 32 + 4 / 256) = "99-164".data ∧
    "99-164".data ≠ "99-16+".data ∧
    convertPriceStr "99-16+".data = none := by
  refine ⟨?_, by decide, by decide⟩
  have hfloor : ⌊(99 + 16 / 32 + 4 / 256 : ℚ)⌋ = 99 := by
    rw [Int.floor_eq_iff]
    push_cast
    norm_num
  have h2 : ((99 + 16 / 32 + 4 / 256 : ℚ) - ((99 : ℤ) : ℚ)) * 256 = 132 := by
    push_cast
    norm_num
  have h3 : cppRound 132 = 132 := by
    unfold cppRound
    rw [if_pos (by norm_num)]
    rw [show (132 : ℚ) + 1 / 2 = 265 / 2 by norm_num]
    rw [Int.floor_eq_iff]
    push_cast
    norm_num
  simp only [convertPriceDec, hfloor, h2, h3]
  decide

/-! ## GUI throttle (C4) -/

/-- A concrete price event for the GUI pipeline. -/
def priceW : Price := ⟨"9128283H1", 99, 1⟩

/-- C4 (code behaviour at the failing input): a price event arriving
1000 ms after construction satisfies the claimed emission condition
(elapsed > 300 ms) — indeed `PublishThrottledPrice`, had it been called,
would emit it — but the listener path the service actually wires
(`ProcessAdd` → the empty-bodied `OnMessage`) never consults the clock and
appends nothing to the GUI sink. -/
theorem gui_throttle_code_behavior :
    (1000 : ℤ) - 0 > 300 ∧
    (publishThrottledPrice 1000 priceW (guiInit 0)).sink = [(1000, priceW)] ∧
    (guiProcessEvents [(1000, priceW)] (guiInit 0)).sink = [] := by
  refine ⟨by norm_num, ?_, by decide⟩
  simp [publishThrottledPrice, guiConnectorPublish, guiInit]

end TradingSystem
